import Mathlib

/-!
Shallow embedding of the `MongoDBDistributedCache` adapter
(`MyWeb.Common/MongoDBDistributedCache.cs` in the repository's source
material): a byte-blob distributed-cache contract (`Get`, `Set`, `Remove`,
`Refresh`) implemented against one MongoDB collection of `CacheEntry`
documents.

Modelling choices:
- The collection is modelled as a finite map `Store := String → Option
  CacheEntry` keyed by the document `Id` (the spec's data-model invariant:
  `Id` is unique across the collection, enforced by the store's primary-key
  semantics, and every operation filters with `x.Id == key`).
- `DateTime.UtcNow` becomes an explicit `now : Nat` parameter threaded into
  each operation; `TimeSpan` durations are `Nat`.
- `byte[]` values are `List Byte` with `Byte := Fin 256`; the C# `null`
  return of `Get` (key absent) is `Option.none`.
- MongoDB driver calls are embedded as: `Find(x => x.Id == key)
  .FirstOrDefault()` = map lookup; `ReplaceOne(filter, e)` replaces the
  matched document if one exists (no-op otherwise); `ReplaceOne` with
  `IsUpsert = true` replaces-or-inserts; `DeleteOne(filter)` deletes the
  matched document if one exists.
- Stateful methods return the updated `Store` explicitly; `Get` returns the
  pair (returned bytes, updated store).
-/

namespace MongoCache

abbrev Byte := Fin 256

/-- The `CacheEntry` document: one document per cache key
(`MyWeb.Common`, data model of the cache collection). -/
structure CacheEntry where
  Id : String
  Value : List Byte
  AbsoluteExpiration : Option Nat
  SlidingExpiration : Option Nat
  LastAccessTime : Nat
deriving DecidableEq, Repr

/-- The caller-supplied options of `Set`: `DistributedCacheEntryOptions`,
restricted to the two members the adapter reads
(`options.AbsoluteExpiration` and `options.SlidingExpiration`). -/
structure EntryOptions where
  AbsoluteExpiration : Option Nat
  SlidingExpiration : Option Nat
deriving DecidableEq, Repr

/-- The cache collection, keyed by document `Id` (unique). -/
abbrev Store := String → Option CacheEntry

/-- `_cacheCollection.ReplaceOne(x => x.Id == key, e)` without upsert:
replaces the matched document when one exists, otherwise no-op. -/
def replaceOne (s : Store) (key : String) (e : CacheEntry) : Store :=
  fun k => if k = key then (if (s key).isSome then some e else s key) else s k

/-- `_cacheCollection.ReplaceOne(x => x.Id == key, e, IsUpsert = true)`:
replaces the matched document when one exists, inserts otherwise. -/
def replaceOneUpsert (s : Store) (key : String) (e : CacheEntry) : Store :=
  fun k => if k = key then some e else s k

/-- `_cacheCollection.DeleteOne(x => x.Id == key)`. -/
def deleteOne (s : Store) (key : String) : Store :=
  fun k => if k = key then none else s k

/-- `MongoDBDistributedCache.Get(key)`: find by `Id`; `null` when absent;
when the found entry has a `SlidingExpiration`, set `LastAccessTime` to now
and persist via `ReplaceOne`; return `entry.Value`. -/
def Get (s : Store) (key : String) (now : Nat) : Option (List Byte) × Store :=
  match s key with
  | none => (none, s)
  | some entry =>
      if entry.SlidingExpiration.isSome then
        let touched := { entry with LastAccessTime := now }
        (some touched.Value, replaceOne s key touched)
      else
        (some entry.Value, s)

/-- `MongoDBDistributedCache.Refresh(key)`: find by `Id`; when a document
exists and has a `SlidingExpiration`, set `LastAccessTime` to now and
persist; otherwise no-op. Returns only the store (the C# method is `void`). -/
def Refresh (s : Store) (key : String) (now : Nat) : Store :=
  match s key with
  | none => s
  | some entry =>
      if entry.SlidingExpiration.isSome then
        replaceOne s key { entry with LastAccessTime := now }
      else
        s

/-- `MongoDBDistributedCache.Remove(key)`: `DeleteOne` on the `Id` filter. -/
def Remove (s : Store) (key : String) : Store :=
  deleteOne s key

/-- `MongoDBDistributedCache.Set(key, value, options)`: build a fresh
`CacheEntry` with `Id = key`, `Value = value`, expirations copied from the
options, `LastAccessTime = now`, and upsert it. -/
def Set (s : Store) (key : String) (value : List Byte) (options : EntryOptions)
    (now : Nat) : Store :=
  replaceOneUpsert s key
    { Id := key
      Value := value
      AbsoluteExpiration := options.AbsoluteExpiration
      SlidingExpiration := options.SlidingExpiration
      LastAccessTime := now }

/-- Iterated reads: thread the store through a sequence of `Get key` calls,
one per timestamp in the list. -/
def getIter (s : Store) (key : String) (times : List Nat) : Store :=
  times.foldl (fun st t => (Get st key t).2) s

/-- The empty collection. -/
def emptyStore : Store := fun _ => none

/-- Lookup after `Set` at the written key: the freshly built document. -/
theorem set_find_self (s : Store) (k : String) (v : List Byte)
    (o : EntryOptions) (t : Nat) :
    Set s k v o t k = some ⟨k, v, o.AbsoluteExpiration, o.SlidingExpiration, t⟩ := by
  simp [Set, replaceOneUpsert]

/-- A `Get` on an entry without sliding expiration returns the value and
leaves the store untouched. -/
theorem get_no_sliding (s : Store) (k : String) (t : Nat) (e : CacheEntry)
    (h : s k = some e) (hs : e.SlidingExpiration = none) :
    Get s k t = (some e.Value, s) := by
  simp [Get, h, hs]

/-- A `Get` on an entry with sliding expiration returns the value and
persists the touched document. -/
theorem get_sliding (s : Store) (k : String) (t : Nat) (e : CacheEntry)
    (h : s k = some e) (hs : e.SlidingExpiration.isSome) :
    Get s k t
      = (some e.Value, replaceOne s k { e with LastAccessTime := t }) := by
  simp [Get, h, hs]

/-- A `set` with the empty options followed by a `get` of the same key
yields the written value. -/
theorem set_empty_options_then_get (s : Store) (k : String) (v : List Byte)
    (t1 t2 : Nat) :
    (Get (Set s k v ⟨none, none⟩ t1) k t2).1 = some v := by
  rw [get_no_sliding _ k t2 _ (set_find_self s k v ⟨none, none⟩ t1) rfl]

/-- C1: for every key `k` and byte value `v`, `set(k, v, {})` (no expiration
options) followed immediately by `get(k)` on the resulting store returns `v`,
not the Not-found signal. -/
theorem claim1_set_then_get (s : Store) (k : String) (v : List Byte)
    (t1 t2 : Nat) :
    (Get (Set s k v ⟨none, none⟩ t1) k t2).1 = some v :=
  set_empty_options_then_get s k v t1 t2

/-- C2: `get(k)` on an existing document returns the stored `Value` for
every current time `t`, with no expiration check: in particular even when
`t` is past `AbsoluteExpiration` or past `LastAccessTime + SlidingExpiration`,
the stored value — never Not-found — is returned. -/
theorem claim2_get_ignores_expiration (s : Store) (k : String) (t : Nat)
    (e : CacheEntry) (h : s k = some e) :
    (Get s k t).1 = some e.Value := by
  rcases hs : e.SlidingExpiration with _ | d
  · rw [get_no_sliding s k t e h hs]
  · rw [get_sliding s k t e h (by simp [hs])]

/-- C2 witness: a document whose absolute deadline (5) and sliding deadline
(0 + 3) are both far in the past at read time 100 still yields its value. -/
theorem claim2_witness :
    (Get (fun k => if k = "k2" then some ⟨"k2", [1], some 5, some 3, 0⟩ else none)
        "k2" 100).1 = some [1] :=
  claim2_get_ignores_expiration _ "k2" 100 ⟨"k2", [1], some 5, some 3, 0⟩ (by simp)

/-- C3: on an entry with a sliding expiration, `get(k)` at time `t` returns
the stored value (read before the touch; the touch never changes `Value`)
and persists the document with `LastAccessTime` set to `t` — all other
fields, the sliding expiration included, as they were, so the same holds of
every subsequent `get(k)`. -/
theorem claim3_get_sliding_touch (s : Store) (k : String) (t : Nat)
    (e : CacheEntry) (h : s k = some e) (hs : e.SlidingExpiration.isSome) :
    (Get s k t).1 = some e.Value ∧
      (Get s k t).2 k = some { e with LastAccessTime := t } := by
  rw [get_sliding s k t e h hs]
  exact ⟨rfl, by simp [replaceOne, h]⟩

/-- C3 witness: after `set("k3", [7], {slidingExpiration: 10})` at time 0, a
`get` at time 42 returns `[7]` and stores `LastAccessTime = 42`. -/
theorem claim3_witness :
    (Get (Set emptyStore "k3" [7] ⟨none, some 10⟩ 0) "k3" 42).1 = some [7] ∧
      (Get (Set emptyStore "k3" [7] ⟨none, some 10⟩ 0) "k3" 42).2 "k3"
        = some ⟨"k3", [7], none, some 10, 42⟩ :=
  claim3_get_sliding_touch _ "k3" 42 ⟨"k3", [7], none, some 10, 0⟩
    (by simp [Set, replaceOneUpsert, emptyStore]) rfl

/-- C4: `set(k, v1, o1)` then `set(k, v2, {})` then `get(k)` returns `v2`
(never `v1`), and the second `set` is a full upsert overwrite: the stored
document afterwards is exactly the fresh entry built from `v2` and the empty
options, every previous field — the sliding-expiration bookkeeping of `o1`
included — discarded. -/
theorem claim4_set_overwrites (s : Store) (k : String) (v1 v2 : List Byte)
    (o1 : EntryOptions) (t1 t2 t3 : Nat) :
    (Get (Set (Set s k v1 o1 t1) k v2 ⟨none, none⟩ t2) k t3).1 = some v2 ∧
      Set (Set s k v1 o1 t1) k v2 ⟨none, none⟩ t2 k
        = some ⟨k, v2, none, none, t2⟩ :=
  ⟨set_empty_options_then_get _ k v2 t2 t3, set_find_self _ k v2 ⟨none, none⟩ t2⟩

/-- C5: `get(k)` on a key with no document returns the Not-found signal
(`none`), a normal result distinct from a stored empty byte value: after
`set(k, [], {})`, `get(k)` returns `some []`, not `none`. -/
theorem claim5_missing_is_not_found (s : Store) (k : String) (t t1 t2 : Nat)
    (h : s k = none) :
    (Get s k t).1 = none ∧
      (Get (Set s k [] ⟨none, none⟩ t1) k t2).1 = some [] ∧
      (Get (Set s k [] ⟨none, none⟩ t1) k t2).1 ≠ none := by
  refine ⟨by simp [Get, h], set_empty_options_then_get s k [] t1 t2, ?_⟩
  rw [set_empty_options_then_get s k [] t1 t2]
  simp

/-- C5 witness: on the empty collection, `get("k5")` is Not-found, while
`set("k5", [], {})` then `get("k5")` is the empty value, not Not-found. -/
theorem claim5_witness :
    (Get emptyStore "k5" 3).1 = none ∧
      (Get (Set emptyStore "k5" [] ⟨none, none⟩ 4) "k5" 5).1 = some [] ∧
      (Get (Set emptyStore "k5" [] ⟨none, none⟩ 4) "k5" 5).1 ≠ none :=
  claim5_missing_is_not_found emptyStore "k5" 3 4 5 rfl

/-- C6: `refresh(k)` touches and persists exactly when a document with `Id`
`k` exists and has `SlidingExpiration` set — the stored document then gets
`LastAccessTime = t` and nothing else changes; when the document is absent
or has no sliding expiration, the whole store is left unchanged. (The
operation returns no value: in this embedding `Refresh` produces only the
updated store, mirroring the `void` method.) -/
theorem claim6_refresh_spec (s : Store) (k : String) (t : Nat) :
    (∀ e, s k = some e → e.SlidingExpiration.isSome →
        Refresh s k t k = some { e with LastAccessTime := t } ∧
        ∀ k2, k2 ≠ k → Refresh s k t k2 = s k2) ∧
    (s k = none → Refresh s k t = s) ∧
    (∀ e, s k = some e → e.SlidingExpiration = none → Refresh s k t = s) := by
  refine ⟨fun e h hs => ?_, fun h => by simp [Refresh, h], fun e h hs => by
    simp [Refresh, h, hs]⟩
  simp only [Refresh, h, hs, if_true]
  exact ⟨by simp [replaceOne, h], fun k2 hk2 => by simp [replaceOne, hk2]⟩

/-- C6 witness: a sliding entry at "k6" is touched to time 9 while key "x"
is untouched; refresh of the absent "y" and of the absolute-only "k6b" are
no-ops. -/
theorem claim6_witness :
    (Refresh (fun k => if k = "k6" then some ⟨"k6", [2], none, some 4, 1⟩ else none)
        "k6" 9 "k6" = some ⟨"k6", [2], none, some 4, 9⟩ ∧
      Refresh (fun k => if k = "k6" then some ⟨"k6", [2], none, some 4, 1⟩ else none)
        "k6" 9 "x" = none) ∧
    (Refresh (fun k => if k = "k6" then some ⟨"k6", [2], none, some 4, 1⟩ else none)
        "y" 9 = fun k => if k = "k6" then some ⟨"k6", [2], none, some 4, 1⟩ else none) ∧
    (Refresh (fun k => if k = "k6b" then some ⟨"k6b", [2], some 7, none, 1⟩ else none)
        "k6b" 9 = fun k => if k = "k6b" then some ⟨"k6b", [2], some 7, none, 1⟩ else none) := by
  refine ⟨?_, ?_, ?_⟩
  · have h := (claim6_refresh_spec
      (fun k => if k = "k6" then some ⟨"k6", [2], none, some 4, 1⟩ else none) "k6" 9).1
      ⟨"k6", [2], none, some 4, 1⟩ (by simp) rfl
    exact ⟨h.1, h.2 "x" (by simp)⟩
  · exact (claim6_refresh_spec _ "y" 9).2.1 (by simp)
  · exact (claim6_refresh_spec _ "k6b" 9).2.2 ⟨"k6b", [2], some 7, none, 1⟩ (by simp) rfl

/-- C7: after `set(k, v, {absoluteExpiration: T})` with no sliding
expiration, any sequence of `get(k)` calls — at arbitrary times — leaves the
stored state, its `LastAccessTime` in particular, exactly as the `set` left
it. -/
theorem claim7_absolute_only_no_touch (s : Store) (k : String)
    (v : List Byte) (T t0 : Nat) (ts : List Nat) :
    getIter (Set s k v ⟨some T, none⟩ t0) k ts = Set s k v ⟨some T, none⟩ t0 := by
  generalize hst : Set s k v ⟨some T, none⟩ t0 = st
  have hfind : st k = some ⟨k, v, some T, none, t0⟩ := by
    rw [← hst]; exact set_find_self s k v ⟨some T, none⟩ t0
  clear hst
  induction ts with
  | nil => rfl
  | cons t ts ih =>
      show getIter (Get st k t).2 k ts = st
      rw [get_no_sliding st k t _ hfind rfl]
      exact ih

/-- C8: `remove(k)` is idempotent: on a key with no document it is a no-op
(the store is unchanged, not an error), and a second `remove(k)` right after
a first one changes nothing more. -/
theorem claim8_remove_idempotent (s : Store) (k : String) :
    (s k = none → Remove s k = s) ∧
      Remove (Remove s k) k = Remove s k := by
  constructor
  · intro h
    funext k2
    by_cases hk : k2 = k <;> simp [Remove, deleteOne, hk, h]
  · funext k2
    by_cases hk : k2 = k <;> simp [Remove, deleteOne, hk]

/-- C8 witness: removing "k8" from the empty collection leaves it empty, and
removing twice equals removing once. -/
theorem claim8_witness :
    Remove emptyStore "k8" = emptyStore ∧
      Remove (Remove emptyStore "k8") "k8" = Remove emptyStore "k8" :=
  ⟨(claim8_remove_idempotent emptyStore "k8").1 rfl,
    (claim8_remove_idempotent emptyStore "k8").2⟩

/-- `Get` never changes documents stored under other keys. -/
theorem get_frame (s : Store) (k : String) (t : Nat) (k2 : String)
    (hk : k2 ≠ k) : (Get s k t).2 k2 = s k2 := by
  rcases h : s k with _ | e
  · simp [Get, h]
  · by_cases hsl : e.SlidingExpiration.isSome
    · simp [Get, h, hsl, replaceOne, hk]
    · simp [Get, h, hsl]

/-- `Refresh` never changes documents stored under other keys. -/
theorem refresh_frame (s : Store) (k : String) (t : Nat) (k2 : String)
    (hk : k2 ≠ k) : Refresh s k t k2 = s k2 := by
  rcases h : s k with _ | e
  · simp [Refresh, h]
  · by_cases hsl : e.SlidingExpiration.isSome
    · simp [Refresh, h, hsl, replaceOne, hk]
    · simp [Refresh, h, hsl]

/-- `Remove` never changes documents stored under other keys. -/
theorem remove_frame (s : Store) (k : String) (k2 : String)
    (hk : k2 ≠ k) : Remove s k k2 = s k2 := by
  simp [Remove, deleteOne, hk]

/-- The sliding touch of `Get` at the read key persists the entry with only
`LastAccessTime` changed. -/
theorem get_touch_at_key (s : Store) (k : String) (t : Nat) (e : CacheEntry)
    (h : s k = some e) (hs : e.SlidingExpiration.isSome) :
    (Get s k t).2 k = some { e with LastAccessTime := t } := by
  rw [get_sliding s k t e h hs]
  simp [replaceOne, h]

/-- The sliding touch of `Refresh` at the refreshed key persists the entry
with only `LastAccessTime` changed. -/
theorem refresh_touch_at_key (s : Store) (k : String) (t : Nat)
    (e : CacheEntry) (h : s k = some e) (hs : e.SlidingExpiration.isSome) :
    Refresh s k t k = some { e with LastAccessTime := t } := by
  simp [Refresh, h, hs, replaceOne]

/-- C9: `LastAccessTime` is monotonically non-decreasing. Provided the
current-time input `t` of an operation is at least the `LastAccessTime`
already stored for an entry, the entry found under the same key after `get`,
`refresh`, `set`, or `remove` — whenever one is found at all — never carries
an earlier `LastAccessTime`: each operation either leaves the field alone or
writes `t` into it. -/
theorem claim9_lastAccessTime_monotone (s : Store) (k k2 : String) (t : Nat)
    (v : List Byte) (o : EntryOptions) (e e' : CacheEntry)
    (hs : s k2 = some e) (ht : e.LastAccessTime ≤ t) :
    ((Get s k t).2 k2 = some e' → e.LastAccessTime ≤ e'.LastAccessTime) ∧
    (Refresh s k t k2 = some e' → e.LastAccessTime ≤ e'.LastAccessTime) ∧
    (Set s k v o t k2 = some e' → e.LastAccessTime ≤ e'.LastAccessTime) ∧
    (Remove s k k2 = some e' → e.LastAccessTime ≤ e'.LastAccessTime) := by
  by_cases hk : k2 = k
  · subst hk
    refine ⟨fun h' => ?_, fun h' => ?_, fun h' => ?_, fun h' => ?_⟩
    · by_cases hsl : e.SlidingExpiration.isSome
      · rw [get_touch_at_key s k2 t e hs hsl] at h'
        cases Option.some.inj h'
        exact ht
      · rw [get_no_sliding s k2 t e hs (Option.not_isSome_iff_eq_none.1 hsl)] at h'
        have h2 : s k2 = some e' := h'
        rw [hs] at h2
        cases Option.some.inj h2
        exact le_refl _
    · by_cases hsl : e.SlidingExpiration.isSome
      · rw [refresh_touch_at_key s k2 t e hs hsl] at h'
        cases Option.some.inj h'
        exact ht
      · simp [Refresh, hs, Option.not_isSome_iff_eq_none.1 hsl] at h'
        cases h'
        exact le_refl _
    · rw [set_find_self s k2 v o t] at h'
      cases Option.some.inj h'
      exact ht
    · rw [show Remove s k2 k2 = none by simp [Remove, deleteOne]] at h'
      exact absurd h' (by simp)
  · refine ⟨fun h' => ?_, fun h' => ?_, fun h' => ?_, fun h' => ?_⟩
    · rw [get_frame s k t k2 hk, hs] at h'
      cases Option.some.inj h'
      exact le_refl _
    · rw [refresh_frame s k t k2 hk, hs] at h'
      cases Option.some.inj h'
      exact le_refl _
    · rw [show Set s k v o t k2 = s k2 by simp [Set, replaceOneUpsert, hk], hs] at h'
      cases Option.some.inj h'
      exact le_refl _
    · rw [remove_frame s k k2 hk, hs] at h'
      cases Option.some.inj h'
      exact le_refl _

/-- C9 witness: a sliding entry last accessed at 2 is read at time 11; the
persisted entry's `LastAccessTime` (11) is no earlier than the stored 2. -/
theorem claim9_witness :
    CacheEntry.LastAccessTime ⟨"k9", [3], none, some 6, 2⟩ ≤
      CacheEntry.LastAccessTime ⟨"k9", [3], none, some 6, 11⟩ :=
  (claim9_lastAccessTime_monotone
      (fun k => if k = "k9" then some ⟨"k9", [3], none, some 6, 2⟩ else none)
      "k9" "k9" 11 [] ⟨none, none⟩ _ _ (by simp) (by decide)).1 (by decide)

/-- C10: the touch performed by `get(k)` and `refresh(k)` on a sliding entry
persists the document with `Id`, `Value`, `AbsoluteExpiration` and
`SlidingExpiration` exactly as read — only `LastAccessTime` changes — and
`get`, `refresh` and `remove` on `k` leave every document stored under any
other key unchanged. -/
theorem claim10_touch_frame (s : Store) (k : String) (t : Nat)
    (e : CacheEntry) :
    (∀ k2, k2 ≠ k →
        (Get s k t).2 k2 = s k2 ∧ Refresh s k t k2 = s k2 ∧
          Remove s k k2 = s k2) ∧
    (s k = some e → e.SlidingExpiration.isSome →
        (Get s k t).2 k = some { e with LastAccessTime := t } ∧
          Refresh s k t k = some { e with LastAccessTime := t }) :=
  ⟨fun k2 hk2 =>
      ⟨get_frame s k t k2 hk2, refresh_frame s k t k2 hk2,
        remove_frame s k k2 hk2⟩,
    fun h hsl =>
      ⟨get_touch_at_key s k t e h hsl, refresh_touch_at_key s k t e h hsl⟩⟩

/-- C10 witness: touching "ka" (sliding entry, read at time 8) rewrites only
its `LastAccessTime`, and the unrelated key "kb" is untouched by get,
refresh and remove on "ka". -/
theorem claim10_witness :
    ((Get (fun k => if k = "ka" then some ⟨"ka", [4], some 9, some 5, 1⟩ else none)
        "ka" 8).2 "kb" = none ∧
      Refresh (fun k => if k = "ka" then some ⟨"ka", [4], some 9, some 5, 1⟩ else none)
        "ka" 8 "kb" = none ∧
      Remove (fun k => if k = "ka" then some ⟨"ka", [4], some 9, some 5, 1⟩ else none)
        "ka" "kb" = none) ∧
    ((Get (fun k => if k = "ka" then some ⟨"ka", [4], some 9, some 5, 1⟩ else none)
        "ka" 8).2 "ka" = some ⟨"ka", [4], some 9, some 5, 8⟩ ∧
      Refresh (fun k => if k = "ka" then some ⟨"ka", [4], some 9, some 5, 1⟩ else none)
        "ka" 8 "ka" = some ⟨"ka", [4], some 9, some 5, 8⟩) :=
  ⟨(claim10_touch_frame _ "ka" 8 ⟨"ka", [4], some 9, some 5, 1⟩).1 "kb" (by decide),
    (claim10_touch_frame _ "ka" 8 ⟨"ka", [4], some 9, some 5, 1⟩).2 (by simp) rfl⟩

end MongoCache
